import Mathlib

/-!
Verification of the route-overlay synthesis and interaction pipeline of the
2gisHack repository: the WKT line-string decoder and route-geometry walker of
RoutingService, the layer generator of the map page, the address-search wiring
of the Finder component, the bottom-drawer gesture handler, the route context
store, and the geocoding service wrappers.  Each JavaScript function is
shallowly embedded as an executable Lean definition; machine floats produced
by the JavaScript Number conversion are modelled by rationals together with
explicit NaN and undefined values.
-/

set_option maxRecDepth 4000

/-- Result of the JavaScript Number conversion and of array destructuring:
either an actual numeric value (modelled as a rational), NaN, or undefined. -/
inductive JNum where
  | num (q : ℚ)
  | nan
  | undef
deriving DecidableEq, Repr

/-- Decimal digit test, the digit class used by the numeric grammar. -/
def isDig (c : Char) : Bool := decide (c ∈ ['0', '1', '2', '3', '4', '5', '6', '7', '8', '9'])

/-- Numeric value of a digit character. -/
def digitVal (c : Char) : ℕ := c.toNat - '0'.toNat

/-- Value of a digit string read left to right, as JavaScript Number reads
the integer and fraction digit runs. -/
def natOfDigits (ds : List Char) : ℕ := ds.foldl (fun a c => 10 * a + digitVal c) 0

/-- Model of the JavaScript String.prototype.split with a one-character
separator: the separator is dropped and the pieces between separators are
returned; the result is never the empty list (splitting the empty string
yields one empty piece). -/
def jsSplit (sep : Char) : List Char → List (List Char)
  | [] => [[]]
  | c :: cs =>
    if c = sep then [] :: jsSplit sep cs
    else
      match jsSplit sep cs with
      | [] => [[c]]
      | g :: gs => (c :: g) :: gs

/-- Model of the JavaScript String.prototype.trim: whitespace is removed from
both ends. -/
def jsTrim (cs : List Char) : List Char :=
  ((cs.dropWhile Char.isWhitespace).reverse.dropWhile Char.isWhitespace).reverse

/-- Decimal literal parser backing the Number conversion: an optional run of
integer digits, optionally followed by a dot and a run of fraction digits.
The whole input must be consumed; at least one digit must be present. -/
def parseDecimal (cs : List Char) : Option ℚ :=
  match cs.dropWhile isDig with
  | [] =>
    if (cs.takeWhile isDig).isEmpty then none
    else some ((natOfDigits (cs.takeWhile isDig) : ℚ))
  | '.' :: fp =>
    if fp.all isDig && !((cs.takeWhile isDig).isEmpty && fp.isEmpty) then
      some ((natOfDigits (cs.takeWhile isDig) : ℚ) + (natOfDigits fp : ℚ) / 10 ^ fp.length)
    else none
  | _ => none

/-- Model of the JavaScript Number conversion on the decimal fragment that the
route data uses: surrounding whitespace is ignored, the empty string converts
to 0, an optional sign precedes a decimal literal, and everything else is NaN.
Hexadecimal and exponent forms never occur in the route payloads and are out
of scope. -/
def jsNumberCore : List Char → JNum
  | [] => JNum.num 0
  | c :: rest =>
    if c = '-' then
      match parseDecimal rest with
      | some q => JNum.num (-q)
      | none => JNum.nan
    else if c = '+' then
      match parseDecimal rest with
      | some q => JNum.num q
      | none => JNum.nan
    else
      match parseDecimal (c :: rest) with
      | some q => JNum.num q
      | none => JNum.nan

/-- Model of the JavaScript Number conversion: trim, then convert with the
sign and decimal-literal rules above. -/
def jsNumber (cs0 : List Char) : JNum :=
  jsNumberCore (jsTrim cs0)

/-- Model of the destructuring assignment that RoutingService.parseWKTLineString
performs on the mapped token array: missing positions become undefined and
extra positions are dropped. -/
def destruct2 : List JNum → JNum × JNum
  | [] => (JNum.undef, JNum.undef)
  | [a] => (a, JNum.undef)
  | a :: b :: _ => (a, b)

/-- Character sequence of the token removed by the regular expression in
RoutingService.parseWKTLineString. -/
def lsTok : List Char := ['L', 'I', 'N', 'E', 'S', 'T', 'R', 'I', 'N', 'G', '(']

/-- Model of the global regular-expression replacement in
RoutingService.parseWKTLineString (src/unnamed/part_004 line 99): every
occurrence of the token LINESTRING( and every closing parenthesis is removed,
scanning left to right. -/
def stripWKT : List Char → List Char
  | 'L' :: 'I' :: 'N' :: 'E' :: 'S' :: 'T' :: 'R' :: 'I' :: 'N' :: 'G' :: '(' :: rest =>
    stripWKT rest
  | ')' :: rest => stripWKT rest
  | c :: rest => c :: stripWKT rest
  | [] => []

/-- Per-pair step of RoutingService.parseWKTLineString: trim the chunk, split
it on single spaces, convert every token with Number, and destructure the
first two results. -/
def parsePairChunk (chunk : List Char) : JNum × JNum :=
  destruct2 ((jsSplit ' ' (jsTrim chunk)).map jsNumber)

/-- Character-level body of RoutingService.parseWKTLineString
(src/unnamed/part_004 lines 97-106): strip the type token and parentheses,
split on commas, and parse each chunk as a coordinate pair. -/
def parseWKTChars (cs : List Char) : List (JNum × JNum) :=
  (jsSplit ',' (stripWKT cs)).map parsePairChunk

/-- Embedding of RoutingService.parseWKTLineString: decode a WKT line-string
into the list of (lon, lat) pairs the JavaScript method returns. -/
def parseWKTLineString (s : String) : List (JNum × JNum) :=
  parseWKTChars s.data

example : parseWKTLineString "LINESTRING(abc def)" = [(JNum.nan, JNum.nan)] := by decide

example : parseWKTLineString "" = [(JNum.num 0, JNum.undef)] := by decide

/-- Numeric token of a well-formed WKT source text: an optional minus sign, a
run of integer digits and a run of fraction digits (the fraction run is
rendered after a dot when nonempty). -/
structure NumTok where
  neg : Bool
  ip : List Char
  fp : List Char
deriving DecidableEq, Repr

/-- Well-formedness of a numeric token: a nonempty integer digit run and
digit-only runs. -/
def NumTok.wf (t : NumTok) : Bool :=
  !t.ip.isEmpty && t.ip.all isDig && t.fp.all isDig

/-- Source-text rendering of a numeric token. -/
def NumTok.render (t : NumTok) : List Char :=
  (if t.neg then ['-'] else []) ++ t.ip ++ (if t.fp.isEmpty then [] else '.' :: t.fp)

/-- Numeric value written in the source text of a token. -/
def NumTok.val (t : NumTok) : ℚ :=
  (if t.neg then -1 else 1) * ((natOfDigits t.ip : ℚ) + (natOfDigits t.fp : ℚ) / 10 ^ t.fp.length)

/-- Source-text rendering of one coordinate pair: longitude, one space,
latitude. -/
def renderPair (p : NumTok × NumTok) : List Char :=
  p.1.render ++ ' ' :: p.2.render

/-- The (lon, lat) value pair written in the source text of a coordinate
pair. -/
def pairVal (p : NumTok × NumTok) : JNum × JNum :=
  (JNum.num p.1.val, JNum.num p.2.val)

/-- Well-formedness of a coordinate pair list. -/
def wfPairs (ps : List (NumTok × NumTok)) : Bool :=
  ps.all fun p => p.1.wf && p.2.wf

/-- Comma-join of the rendered coordinate pairs, as written between the
parentheses of a WKT line string. -/
def joinComma : List (List Char) → List Char
  | [] => []
  | [x] => x
  | x :: y :: rest => x ++ ',' :: joinComma (y :: rest)

/-- Well-formed WKT line-string source text for a list of coordinate pairs. -/
def renderLS (ps : List (NumTok × NumTok)) : List Char :=
  lsTok ++ joinComma (ps.map renderPair) ++ [')']

/-- Characters of a well-formed token rendering are digits, the minus sign or
the dot. -/
lemma render_chars (t : NumTok) (h : t.wf = true) :
    ∀ c ∈ t.render, isDig c = true ∨ c = '-' ∨ c = '.' := by
  intro c hc
  have h1 : ∀ x ∈ t.ip, isDig x = true := by
    simp [NumTok.wf, Bool.and_eq_true] at h
    exact h.1.2
  have h2 : ∀ x ∈ t.fp, isDig x = true := by
    simp [NumTok.wf, Bool.and_eq_true] at h
    exact h.2
  unfold NumTok.render at hc
  rcases List.mem_append.1 hc with hc1 | hc2
  · rcases List.mem_append.1 hc1 with hc3 | hc4
    · right; left
      rcases ht : t.neg with _ | _ <;> rw [ht] at hc3 <;> simp at hc3
      exact hc3
    · exact Or.inl (h1 c hc4)
  · rcases hf : t.fp.isEmpty with _ | _ <;> rw [hf] at hc2 <;> simp at hc2
    rcases hc2 with hdot | hmem
    · right; right; exact hdot
    · exact Or.inl (h2 c hmem)

/-- Facts about decimal digit characters used throughout the decoding
proofs. -/
lemma isDig_facts (c : Char) (h : isDig c = true) :
    c.isWhitespace = false ∧ c ≠ 'L' ∧ c ≠ ')' ∧ c ≠ ',' ∧ c ≠ ' ' ∧
      c ≠ '-' ∧ c ≠ '+' ∧ c ≠ '.' := by
  have hm := of_decide_eq_true h
  fin_cases hm <;> decide

/-- Characters of a well-formed token rendering are never the separators or
structural characters of the WKT grammar and are never whitespace. -/
lemma render_chars_safe (t : NumTok) (h : t.wf = true) :
    ∀ c ∈ t.render, c.isWhitespace = false ∧ c ≠ 'L' ∧ c ≠ ')' ∧ c ≠ ',' ∧ c ≠ ' ' := by
  intro c hc
  rcases render_chars t h c hc with hd | hm | hdot
  · obtain ⟨w, l, r, cm, sp, _, _, _⟩ := isDig_facts c hd
    exact ⟨w, l, r, cm, sp⟩
  · subst hm; refine ⟨by decide, by decide, by decide, by decide, by decide⟩
  · subst hdot; refine ⟨by decide, by decide, by decide, by decide, by decide⟩

/-- Dropping while a predicate holds leaves a list whose head falsifies the
predicate unchanged. -/
lemma dropWhile_head_false (p : Char → Bool) (c : Char) (cs : List Char) (h : p c = false) :
    (c :: cs).dropWhile p = c :: cs := by
  simp [List.dropWhile, h]

/-- Trimming changes nothing when both the first and the last character are
not whitespace. -/
lemma jsTrim_eq_self (cs : List Char)
    (h1 : ∀ c, cs.head? = some c → c.isWhitespace = false)
    (h2 : ∀ c, cs.getLast? = some c → c.isWhitespace = false) :
    jsTrim cs = cs := by
  cases cs with
  | nil => rfl
  | cons a l =>
    unfold jsTrim
    rw [dropWhile_head_false _ _ _ (h1 a rfl)]
    rcases List.eq_nil_or_concat (a :: l) with hnil | ⟨ys, y, hy⟩
    · simp at hnil
    · rw [List.concat_eq_append] at hy
      rw [hy]
      have hyw : y.isWhitespace = false := by
        apply h2
        rw [hy]
        simp
      rw [List.reverse_append, List.reverse_singleton, List.singleton_append,
        dropWhile_head_false _ _ _ hyw]
      simp

/-- Splitting a list that does not contain the separator yields that single
piece. -/
lemma jsSplit_of_not_mem (sep : Char) (cs : List Char) (h : ∀ c ∈ cs, c ≠ sep) :
    jsSplit sep cs = [cs] := by
  induction cs with
  | nil => rfl
  | cons c cs ih =>
    have hc : c ≠ sep := h c (by simp)
    have ih2 := ih (fun d hd => h d (by simp [hd]))
    simp only [jsSplit, if_neg hc, ih2]

/-- Splitting an appended separator splits off the separator-free front
part. -/
lemma jsSplit_append_sep (sep : Char) (xs ys : List Char) (h : ∀ c ∈ xs, c ≠ sep) :
    jsSplit sep (xs ++ sep :: ys) = xs :: jsSplit sep ys := by
  induction xs with
  | nil => simp [jsSplit]
  | cons c xs ih =>
    have hc : c ≠ sep := h c (by simp)
    have ih2 := ih (fun d hd => h d (by simp [hd]))
    rw [List.cons_append, jsSplit, if_neg hc, ih2]

/-- The split result is never the empty list of pieces. -/
lemma jsSplit_ne_nil (sep : Char) (cs : List Char) : jsSplit sep cs ≠ [] := by
  cases cs with
  | nil => simp [jsSplit]
  | cons c cs =>
    rw [jsSplit]
    by_cases hc : c = sep
    · rw [if_pos hc]; simp
    · rw [if_neg hc]
      split <;> simp

set_option maxHeartbeats 1000000 in
/-- Stripping skips over the removed token. -/
lemma stripWKT_token (rest : List Char) : stripWKT (lsTok ++ rest) = stripWKT rest := by
  show stripWKT ('L' :: 'I' :: 'N' :: 'E' :: 'S' :: 'T' :: 'R' :: 'I' :: 'N' :: 'G' :: '(' :: rest) =
    stripWKT rest
  rw [stripWKT]

/-- Stripping removes a closing parenthesis. -/
lemma stripWKT_close (rest : List Char) : stripWKT (')' :: rest) = stripWKT rest := by
  rw [stripWKT]

set_option maxHeartbeats 1000000 in
/-- Stripping keeps a character that opens neither removed pattern. -/
lemma stripWKT_cons_ne (c : Char) (cs : List Char) (h1 : c ≠ 'L') (h2 : c ≠ ')') :
    stripWKT (c :: cs) = c :: stripWKT cs := by
  conv_lhs => rw [stripWKT.eq_def]
  split <;> simp_all

/-- Stripping leaves a list without the removed characters unchanged. -/
lemma stripWKT_of_safe (cs : List Char) (h : ∀ c ∈ cs, c ≠ 'L' ∧ c ≠ ')') :
    stripWKT cs = cs := by
  induction cs with
  | nil => rfl
  | cons c cs ih =>
    obtain ⟨h1, h2⟩ := h c (by simp)
    rw [stripWKT_cons_ne c cs h1 h2, ih (fun d hd => h d (by simp [hd]))]

/-- Stripping a safe body followed by the closing parenthesis recovers the
body. -/
lemma stripWKT_body_close (cs : List Char) (h : ∀ c ∈ cs, c ≠ 'L' ∧ c ≠ ')') :
    stripWKT (cs ++ [')']) = cs := by
  induction cs with
  | nil => rfl
  | cons c cs ih =>
    obtain ⟨h1, h2⟩ := h c (by simp)
    rw [List.cons_append, stripWKT_cons_ne c _ h1 h2, ih (fun d hd => h d (by simp [hd]))]

/-- A head of a list is a member. -/
lemma mem_of_head?_eq (cs : List Char) (c : Char) (h : cs.head? = some c) : c ∈ cs := by
  cases cs <;> simp_all

/-- A last element of a list is a member. -/
lemma mem_of_getLast?_eq (cs : List Char) (c : Char) (h : cs.getLast? = some c) : c ∈ cs := by
  rcases List.eq_nil_or_concat cs with hnil | ⟨ys, y, hy⟩
  · subst hnil; simp at h
  · rw [List.concat_eq_append] at hy
    subst hy
    rw [List.getLast?_concat] at h
    simp_all

/-- Taking while a predicate holds consumes an all-true list entirely. -/
lemma takeWhile_all_eq (p : Char → Bool) (l : List Char) (h : ∀ c ∈ l, p c = true) :
    l.takeWhile p = l := by
  induction l with
  | nil => rfl
  | cons c cs ih =>
    rw [List.takeWhile_cons, if_pos (h c (by simp)), ih (fun d hd => h d (by simp [hd]))]

/-- Dropping while a predicate holds consumes an all-true list entirely. -/
lemma dropWhile_all_eq (p : Char → Bool) (l : List Char) (h : ∀ c ∈ l, p c = true) :
    l.dropWhile p = [] := by
  induction l with
  | nil => rfl
  | cons c cs ih =>
    rw [List.dropWhile_cons, if_pos (h c (by simp)), ih (fun d hd => h d (by simp [hd]))]

/-- Taking while a predicate holds stops exactly at the first failing
character. -/
lemma takeWhile_append_not (p : Char → Bool) (xs : List Char) (y : Char) (ys : List Char)
    (hxs : ∀ c ∈ xs, p c = true) (hy : p y = false) :
    (xs ++ y :: ys).takeWhile p = xs := by
  induction xs with
  | nil => simp [List.takeWhile_cons, hy]
  | cons c cs ih =>
    rw [List.cons_append, List.takeWhile_cons, if_pos (hxs c (by simp)),
      ih (fun d hd => hxs d (by simp [hd]))]

/-- Dropping while a predicate holds stops exactly at the first failing
character. -/
lemma dropWhile_append_not (p : Char → Bool) (xs : List Char) (y : Char) (ys : List Char)
    (hxs : ∀ c ∈ xs, p c = true) (hy : p y = false) :
    (xs ++ y :: ys).dropWhile p = y :: ys := by
  induction xs with
  | nil => simp [List.dropWhile_cons, hy]
  | cons c cs ih =>
    rw [List.cons_append, List.dropWhile_cons, if_pos (hxs c (by simp)),
      ih (fun d hd => hxs d (by simp [hd]))]

/-- Components of token well-formedness. -/
lemma NumTok.wf_spec (t : NumTok) (h : t.wf = true) :
    t.ip ≠ [] ∧ (∀ c ∈ t.ip, isDig c = true) ∧ (∀ c ∈ t.fp, isDig c = true) := by
  simp [NumTok.wf, Bool.and_eq_true, List.all_eq_true] at h
  refine ⟨?_, h.1.2, h.2⟩
  intro hnil
  rw [hnil] at h
  simp at h

/-- The rendering of a well-formed token is nonempty. -/
lemma render_ne_nil (t : NumTok) (h : t.wf = true) : t.render ≠ [] := by
  obtain ⟨hip, _, _⟩ := t.wf_spec h
  unfold NumTok.render
  intro hfalse
  rcases List.append_eq_nil.1 hfalse with ⟨h1, h2⟩
  exact hip (List.append_eq_nil.1 h1).2

/-- The decimal parser recovers the value of a well-formed rendered numeral
body (integer digits, then the optional dotted fraction digits). -/
lemma parseDecimal_render (ip fp : List Char) (hip : ip ≠ [])
    (hipd : ∀ c ∈ ip, isDig c = true) (hfpd : ∀ c ∈ fp, isDig c = true) :
    parseDecimal (ip ++ (if fp.isEmpty then [] else '.' :: fp)) =
      some ((natOfDigits ip : ℚ) + (natOfDigits fp : ℚ) / 10 ^ fp.length) := by
  cases fp with
  | nil =>
    simp only [List.isEmpty_nil, if_pos, List.append_nil]
    unfold parseDecimal
    rw [dropWhile_all_eq isDig ip hipd, takeWhile_all_eq isDig ip hipd]
    rw [if_neg (by simpa [List.isEmpty_iff] using hip)]
    norm_num [natOfDigits]
  | cons f0 fs =>
    rw [if_neg (by simp)]
    unfold parseDecimal
    rw [dropWhile_append_not isDig ip '.' (f0 :: fs) hipd (by decide),
      takeWhile_append_not isDig ip '.' (f0 :: fs) hipd (by decide)]
    have hcond : ((f0 :: fs).all isDig && !(ip.isEmpty && (f0 :: fs).isEmpty)) = true := by
      rw [Bool.and_eq_true, List.all_eq_true]
      exact ⟨fun c hc => hfpd c hc, by simp⟩
    simp only [hcond, if_pos]

/-- The Number conversion recovers the value of a well-formed rendered
token. -/
lemma jsNumber_render (t : NumTok) (h : t.wf = true) :
    jsNumber t.render = JNum.num t.val := by
  obtain ⟨hip, hipd, hfpd⟩ := t.wf_spec h
  have htrim : jsTrim t.render = t.render := by
    apply jsTrim_eq_self
    · intro c hc
      exact (render_chars_safe t h c (mem_of_head?_eq _ _ hc)).1
    · intro c hc
      exact (render_chars_safe t h c (mem_of_getLast?_eq _ _ hc)).1
  obtain ⟨neg, ip, fp⟩ := t
  simp only at hip hipd hfpd
  cases neg with
  | true =>
    have hren : NumTok.render ⟨true, ip, fp⟩ = '-' :: (ip ++ if fp.isEmpty then [] else '.' :: fp) := by
      simp [NumTok.render]
    unfold jsNumber
    rw [htrim, hren, jsNumberCore, if_pos rfl, parseDecimal_render ip fp hip hipd hfpd]
    simp [NumTok.val]
  | false =>
    obtain ⟨i0, ir, hi⟩ : ∃ i0 ir, ip = i0 :: ir := by
      cases ip with
      | nil => exact absurd rfl hip
      | cons a l => exact ⟨a, l, rfl⟩
    have hi0 := isDig_facts i0 (hipd i0 (by rw [hi]; simp))
    have hren : NumTok.render ⟨false, ip, fp⟩ =
        i0 :: (ir ++ if fp.isEmpty then [] else '.' :: fp) := by
      simp [NumTok.render, hi]
    unfold jsNumber
    rw [htrim, hren, jsNumberCore, if_neg hi0.2.2.2.2.2.1, if_neg hi0.2.2.2.2.2.2.1]
    rw [show i0 :: (ir ++ if fp.isEmpty then [] else '.' :: fp) =
      (i0 :: ir) ++ (if fp.isEmpty then [] else '.' :: fp) from rfl]
    rw [← hi, parseDecimal_render ip fp hip hipd hfpd]
    simp [NumTok.val]

/-- The head of an appended list is the head of its nonempty left part. -/
lemma head?_append_left (xs ys : List Char) (h : xs ≠ []) :
    (xs ++ ys).head? = xs.head? := by
  cases xs with
  | nil => exact absurd rfl h
  | cons a l => simp

/-- Decoding one rendered coordinate-pair chunk yields the written value
pair. -/
lemma parsePairChunk_render (a b : NumTok) (ha : a.wf = true) (hb : b.wf = true) :
    parsePairChunk (renderPair (a, b)) = pairVal (a, b) := by
  have hbne : b.render ≠ [] := render_ne_nil b hb
  have htrim : jsTrim (renderPair (a, b)) = renderPair (a, b) := by
    apply jsTrim_eq_self
    · intro c hc
      unfold renderPair at hc
      rw [head?_append_left _ _ (render_ne_nil a ha)] at hc
      exact (render_chars_safe a ha c (mem_of_head?_eq _ _ hc)).1
    · intro c hc
      unfold renderPair at hc
      rcases List.eq_nil_or_concat b.render with hnil | ⟨ys, y, hy⟩
      · exact absurd hnil hbne
      · rw [List.concat_eq_append] at hy
        rw [hy, show a.render ++ ' ' :: (ys ++ [y]) = (a.render ++ ' ' :: ys) ++ [y] by simp,
          List.getLast?_concat] at hc
        have hcy : c = y := by
          have := hc
          simp at this
          exact this.symm
        subst hcy
        exact (render_chars_safe b hb c (by rw [hy]; simp)).1
  have hsplit : jsSplit ' ' (renderPair (a, b)) = [a.render, b.render] := by
    unfold renderPair
    rw [jsSplit_append_sep ' ' a.render b.render
      (fun c hc => (render_chars_safe a ha c hc).2.2.2.2),
      jsSplit_of_not_mem ' ' b.render (fun c hc => (render_chars_safe b hb c hc).2.2.2.2)]
  unfold parsePairChunk
  rw [htrim, hsplit]
  simp only [List.map_cons, List.map_nil]
  rw [jsNumber_render a ha, jsNumber_render b hb]
  rfl

/-- A character of a comma-join of chunks is a character of one chunk or the
comma itself. -/
lemma joinComma_chars (chunks : List (List Char)) :
    ∀ c ∈ joinComma chunks, (∃ ch ∈ chunks, c ∈ ch) ∨ c = ',' := by
  induction chunks with
  | nil => intro c hc; simp [joinComma] at hc
  | cons x rest ih =>
    cases rest with
    | nil =>
      intro c hc
      simp only [joinComma] at hc
      exact Or.inl ⟨x, by simp, hc⟩
    | cons y rest2 =>
      intro c hc
      simp only [joinComma] at hc
      rcases List.mem_append.1 hc with hx | hyc
      · exact Or.inl ⟨x, by simp, hx⟩
      · rcases List.mem_cons.1 hyc with hcomma | hrest
        · exact Or.inr hcomma
        · rcases ih c hrest with ⟨ch, hch, hcch⟩ | hcm
          · exact Or.inl ⟨ch, by simp [hch], hcch⟩
          · exact Or.inr hcm

/-- Splitting a comma-join of comma-free chunks recovers the chunks. -/
lemma jsSplit_joinComma (chunks : List (List Char)) (hne : chunks ≠ [])
    (h : ∀ ch ∈ chunks, ∀ c ∈ ch, c ≠ ',') :
    jsSplit ',' (joinComma chunks) = chunks := by
  induction chunks with
  | nil => exact absurd rfl hne
  | cons x rest ih =>
    cases rest with
    | nil =>
      simp only [joinComma]
      exact jsSplit_of_not_mem ',' x (h x (by simp))
    | cons y rest2 =>
      simp only [joinComma]
      rw [jsSplit_append_sep ',' x _ (h x (by simp))]
      rw [show (joinComma (y :: rest2)) = joinComma (y :: rest2) from rfl]
      rw [ih (by simp) (fun ch hch c hc => h ch (by simp [hch]) c hc)]

/-- C5.  For every well-formed LINESTRING source text with N coordinate
pairs, RoutingService.parseWKTLineString yields exactly the N (lon, lat)
pairs written in the source text, each numerically equal to it.  Well-formed
texts are rendered from a nonempty list of well-formed numeric token pairs. -/
theorem parseWKT_roundtrip (p : NumTok × NumTok) (ps : List (NumTok × NumTok))
    (h : wfPairs (p :: ps) = true) :
    parseWKTLineString (String.mk (renderLS (p :: ps))) = (p :: ps).map pairVal := by
  have hwf : ∀ q ∈ p :: ps, q.1.wf = true ∧ q.2.wf = true := by
    intro q hq
    have := (List.all_eq_true.1 h) q hq
    rw [Bool.and_eq_true] at this
    exact this
  have hchunk : ∀ ch ∈ (p :: ps).map renderPair, ∀ c ∈ ch,
      c ≠ 'L' ∧ c ≠ ')' ∧ c ≠ ',' := by
    intro ch hch c hc
    obtain ⟨q, hq, hqr⟩ := List.mem_map.1 hch
    obtain ⟨h1, h2⟩ := hwf q hq
    rw [← hqr] at hc
    unfold renderPair at hc
    rcases List.mem_append.1 hc with hca | hcb
    · obtain ⟨_, hl, hr, hcm, _⟩ := render_chars_safe q.1 h1 c hca
      exact ⟨hl, hr, hcm⟩
    · rcases List.mem_cons.1 hcb with hsp | hcb2
      · subst hsp
        exact ⟨by decide, by decide, by decide⟩
      · obtain ⟨_, hl, hr, hcm, _⟩ := render_chars_safe q.2 h2 c hcb2
        exact ⟨hl, hr, hcm⟩
  have hsafe : ∀ c ∈ joinComma ((p :: ps).map renderPair), c ≠ 'L' ∧ c ≠ ')' := by
    intro c hc
    rcases joinComma_chars _ c hc with ⟨ch, hch, hcch⟩ | hcm
    · obtain ⟨hl, hr, _⟩ := hchunk ch hch c hcch
      exact ⟨hl, hr⟩
    · subst hcm
      exact ⟨by decide, by decide⟩
  show parseWKTChars (renderLS (p :: ps)) = _
  unfold parseWKTChars renderLS
  rw [List.append_assoc, stripWKT_token, stripWKT_body_close _ hsafe,
    jsSplit_joinComma _ (by simp) (fun ch hch c hc => (hchunk ch hch c hc).2.2)]
  rw [List.map_map]
  apply List.map_congr_left
  intro q hq
  obtain ⟨h1, h2⟩ := hwf q hq
  show parsePairChunk (renderPair q) = pairVal q
  obtain ⟨qa, qb⟩ := q
  exact parsePairChunk_render qa qb h1 h2

/-- Witness for C5: the roundtrip theorem applied to the concrete source text
LINESTRING(37.6 55.7,37.61 55.71). -/
theorem parseWKT_roundtrip_witness :
    wfPairs [(NumTok.mk false ['3', '7'] ['6'], NumTok.mk false ['5', '5'] ['7']),
      (NumTok.mk false ['3', '7'] ['6', '1'], NumTok.mk false ['5', '5'] ['7', '1'])] = true ∧
    parseWKTLineString (String.mk (renderLS
      [(NumTok.mk false ['3', '7'] ['6'], NumTok.mk false ['5', '5'] ['7']),
        (NumTok.mk false ['3', '7'] ['6', '1'], NumTok.mk false ['5', '5'] ['7', '1'])])) =
      [(NumTok.mk false ['3', '7'] ['6'], NumTok.mk false ['5', '5'] ['7']),
        (NumTok.mk false ['3', '7'] ['6', '1'], NumTok.mk false ['5', '5'] ['7', '1'])].map pairVal :=
  ⟨by decide,
    parseWKT_roundtrip (NumTok.mk false ['3', '7'] ['6'], NumTok.mk false ['5', '5'] ['7'])
      [(NumTok.mk false ['3', '7'] ['6', '1'], NumTok.mk false ['5', '5'] ['7', '1'])] (by decide)⟩

/-- C4, amended.  The decoder never raises (it is a total function) and for
every input, malformed or not, it returns one decoded entry per
comma-separated chunk of the stripped input; in particular the result is
never the empty sequence.  A pair that fails to parse as two numbers yields
NaN or undefined components instead of being dropped. -/
theorem parseWKT_total_never_empty (s : String) :
    (parseWKTLineString s).length = (jsSplit ',' (stripWKT s.data)).length ∧
    1 ≤ (parseWKTLineString s).length := by
  constructor
  · unfold parseWKTLineString parseWKTChars
    exact List.length_map _ _
  · unfold parseWKTLineString parseWKTChars
    rw [List.length_map]
    exact List.length_pos.2 (jsSplit_ne_nil ',' (stripWKT s.data))

/-- Counterexample for C4 as stated: on the malformed input
LINESTRING(abc def) the decoder does not return the empty sequence; it
returns one pair with NaN components. -/
theorem parseWKT_malformed_counterexample :
    parseWKTLineString "LINESTRING(abc def)" = [(JNum.nan, JNum.nan)] ∧
    parseWKTLineString "LINESTRING(abc def)" ≠ [] := by
  decide

/-- Geometry record of the raw route payload read by generateLayers: the WKT
text sits under the selection key and is read without a guard. -/
structure GeomSel where
  selection : String
deriving DecidableEq

/-- Alternative record of the movement shape: an optional geometry
collection. -/
structure MAlternative where
  geometry : Option (List GeomSel)
deriving DecidableEq

/-- Movement record: an optional collection of possibly-null alternatives. -/
structure Movement where
  alternatives : Option (List (Option MAlternative))
deriving DecidableEq

/-- Outgoing-path record of the maneuver traversal shape named by the
specification; the layer generator in the source never reads it. -/
structure OutcomingPath where
  geometry : Option (List GeomSel)
deriving DecidableEq

/-- Maneuver record of the maneuver traversal shape named by the
specification; the layer generator in the source never reads it. -/
structure Maneuver where
  outcoming_path : Option OutcomingPath
deriving DecidableEq

/-- Opaque raw payload of one route: the upstream JSON may carry a
movement-shaped collection, a maneuver-shaped collection, both or neither. -/
structure RawData where
  movements : Option (List (Option Movement))
  maneuvers : Option (List (Option Maneuver))
deriving DecidableEq

/-- Route record with its optional raw payload. -/
structure RouteRec where
  raw_data : Option RawData
deriving DecidableEq

/-- Stage record: an optional collection of possibly-null routes. -/
structure Stage where
  routes : Option (List (Option RouteRec))
deriving DecidableEq

/-- Route response: an optional stages collection; the whole response may be
absent as well. -/
structure Resp where
  stages : Option (List Stage)
deriving DecidableEq

/-- GeoJSON feature pushed by generateLayers: the parsed geometry plus the
stage index rendered into the bar property. -/
structure Feature (γ : Type) where
  geometry : γ
  bar : String
deriving DecidableEq

/-- One stage output of generateLayers: the data-source payload (features and
the bar attribute handed to the GeoJsonSource constructor) together with the
pushed layer descriptor (id, match filter key, line color and width). -/
structure StageBuild (γ : Type) where
  features : List (Feature γ)
  sourceBar : String
  id : String
  filterKey : String
  color : Option String
  width : ℕ
deriving DecidableEq

/-- The five-entry color palette of generateLayers
(src/unnamed/part_013 line 50). -/
def lineColors : List String :=
  ["#0000ff", "#ff0000", "#00ff00", "#ffa500", "#800080"]

/-- Feature collection walk of generateLayers for one stage
(src/unnamed/part_013 lines 53-71): every optional collection on the
movement/alternative/geometry path is iterated when present, each selection
string is handed to the geometry parser (the imported wellknown library,
passed here as the parse argument), and a feature is pushed only when the
parser succeeds. -/
def collectFeatures {γ : Type} (parse : String → Option γ) (idx : ℕ) (st : Stage) :
    List (Feature γ) :=
  (st.routes.getD []).flatMap fun r? =>
    (((r?.bind RouteRec.raw_data).bind RawData.movements).getD []).flatMap fun m? =>
      ((m?.bind Movement.alternatives).getD []).flatMap fun a? =>
        ((a?.bind MAlternative.geometry).getD []).flatMap fun g =>
          match parse g.selection with
          | some geo => [Feature.mk geo (Nat.repr idx)]
          | none => []

/-- Per-stage construction of generateLayers (src/unnamed/part_013 lines
72-93): one data-source payload and one layer descriptor, with the color
taken from the palette at the raw stage index. -/
def buildStage {γ : Type} (parse : String → Option γ) (idx : ℕ) (st : Stage) : StageBuild γ :=
  { features := collectFeatures parse idx st
  , sourceBar := Nat.repr idx
  , id := "my-polygons-layer-" ++ Nat.repr idx
  , filterKey := Nat.repr idx
  , color := lineColors.get? idx
  , width := 2 }

/-- Indexed iteration of generateLayers over the stages collection. -/
def buildStagesFrom {γ : Type} (parse : String → Option γ) (idx : ℕ) :
    List Stage → List (StageBuild γ)
  | [] => []
  | st :: rest => buildStage parse idx st :: buildStagesFrom parse (idx + 1) rest

/-- Embedding of generateLayers (src/unnamed/part_013 lines 49-97): walk the
optional stages collection of the response and build one data source and one
layer per stage. -/
def generateLayers {γ : Type} (parse : String → Option γ) (resp : Option Resp) :
    List (StageBuild γ) :=
  buildStagesFrom parse 0 ((resp.bind Resp.stages).getD [])

/-- Flat list of the selection strings on the movement/alternative/geometry
path of one stage, in traversal order. -/
def stageSelections (st : Stage) : List String :=
  (st.routes.getD []).flatMap fun r? =>
    (((r?.bind RouteRec.raw_data).bind RawData.movements).getD []).flatMap fun m? =>
      ((m?.bind Movement.alternatives).getD []).flatMap fun a? =>
        ((a?.bind MAlternative.geometry).getD []).map GeomSel.selection

/-- Geometry record read by RoutingService.parseRouteGeometry: the selection
is guarded by a truthiness test there, so it is optional. -/
structure WAltGeom where
  selection : Option String
deriving DecidableEq

/-- Alternative record of the waypoint shape of
RoutingService.parseRouteGeometry. -/
structure WAlternative where
  geometry : Option (List WAltGeom)
deriving DecidableEq

/-- Waypoint record of RoutingService.parseRouteGeometry. -/
structure Waypoint where
  alternatives : Option (List WAlternative)
deriving DecidableEq

/-- Embedding of RoutingService.parseRouteGeometry (src/unnamed/part_004
lines 70-90): walk waypoints, alternatives and geometry records, decode every
truthy selection string with parseWKTLineString and concatenate the decoded
coordinates. -/
def parseRouteGeometry (ws : List Waypoint) : List (JNum × JNum) :=
  ws.flatMap fun w =>
    (w.alternatives.getD []).flatMap fun a =>
      (a.geometry.getD []).flatMap fun g =>
        match g.selection with
        | some s => if s = "" then [] else parseWKTLineString s
        | none => []

/-- A flat map of per-element filter maps is the filter map of the flat
map. -/
lemma flatMap_filterMap_comm {α β σ : Type} (xs : List α) (S : α → List β) (f : β → Option σ) :
    (xs.flatMap fun x => (S x).filterMap f) = (xs.flatMap S).filterMap f := by
  induction xs with
  | nil => rfl
  | cons x rest ih =>
    rw [List.flatMap_cons, List.flatMap_cons, List.filterMap_append, ih]

/-- A flat map into an optional singleton is a filter map. -/
lemma flatMap_option_toList {β σ : Type} (xs : List β) (f : β → Option σ) :
    (xs.flatMap fun x => (f x).toList) = xs.filterMap f := by
  induction xs with
  | nil => rfl
  | cons x rest ih =>
    rw [List.flatMap_cons, List.filterMap_cons, ih]
    cases f x <;> simp

/-- A flat map of per-element maps is the map of the flat map. -/
lemma flatMap_map_comm {α β σ : Type} (xs : List α) (S : α → List β) (f : β → σ) :
    (xs.flatMap fun x => (S x).map f) = (xs.flatMap S).map f := by
  induction xs with
  | nil => rfl
  | cons x rest ih =>
    rw [List.flatMap_cons, List.flatMap_cons, List.map_append, ih]

/-- C3, amended.  The feature walk of generateLayers equals a filter map of
the flat selection list of the stage: a selection string the geometry parser
rejects is skipped (silently) and every remaining selection of the stage is
still emitted, and any absent collection at any nesting depth simply
contributes nothing; an absent stages collection or an absent response yields
the empty layer list with no error.  The companion counterexample shows that
parseRouteGeometry does not skip malformed selection strings. -/
theorem extraction_skips_unparsable (γ : Type) (parse : String → Option γ) (idx : ℕ)
    (st : Stage) :
    collectFeatures parse idx st =
      (stageSelections st).filterMap (fun s => (parse s).map fun geo => Feature.mk geo (Nat.repr idx)) ∧
    collectFeatures parse idx (Stage.mk none) = [] ∧
    generateLayers parse none = [] ∧
    generateLayers parse (some (Resp.mk none)) = [] := by
  refine ⟨?_, rfl, rfl, rfl⟩
  unfold collectFeatures stageSelections
  have h3 : (fun (g : GeomSel) => match parse g.selection with
      | some geo => [Feature.mk geo (Nat.repr idx)]
      | none => []) =
      fun g => ((parse g.selection).map (fun geo => Feature.mk geo (Nat.repr idx))).toList := by
    funext g
    cases parse g.selection <;> rfl
  simp only [h3, flatMap_option_toList, flatMap_filterMap_comm, flatMap_map_comm,
    List.filterMap_map]
  rfl

/-- Check that no route of any stage of the response carries movement-shaped
data; maneuver-shaped data may still be present. -/
def noMovements (resp : Option Resp) : Bool :=
  ((resp.bind Resp.stages).getD []).all fun st =>
    (st.routes.getD []).all fun r? =>
      (((r?.bind RouteRec.raw_data).bind RawData.movements).getD []).isEmpty

/-- A route walk over routes without movement-shaped data yields nothing. -/
lemma routes_no_movements_flatMap {γ : Type} (parse : String → Option γ) (idx : ℕ)
    (rs : List (Option RouteRec))
    (h : ∀ r? ∈ rs, ((r?.bind RouteRec.raw_data).bind RawData.movements).getD [] = []) :
    (rs.flatMap fun r? =>
      (((r?.bind RouteRec.raw_data).bind RawData.movements).getD []).flatMap fun m? =>
        ((m?.bind Movement.alternatives).getD []).flatMap fun a? =>
          ((a?.bind MAlternative.geometry).getD []).flatMap fun g =>
            match parse g.selection with
            | some geo => [Feature.mk geo (Nat.repr idx)]
            | none => []) = [] := by
  induction rs with
  | nil => rfl
  | cons r rest ih =>
    have hrest := ih (fun x hx => h x (by simp [hx]))
    rw [List.flatMap_cons, h r (by simp), hrest]
    rfl

/-- Feature walk of a stage without movement-shaped data is empty. -/
lemma collectFeatures_no_movements {γ : Type} (parse : String → Option γ) (idx : ℕ)
    (st : Stage)
    (h : ((st.routes.getD []).all fun r? =>
      (((r?.bind RouteRec.raw_data).bind RawData.movements).getD []).isEmpty) = true) :
    collectFeatures parse idx st = [] := by
  unfold collectFeatures
  apply routes_no_movements_flatMap
  rw [List.all_eq_true] at h
  intro r hr
  have hr2 := h r hr
  rwa [List.isEmpty_iff] at hr2

/-- Stage iteration over stages without movement-shaped data produces only
empty feature lists. -/
lemma buildStagesFrom_no_movements {γ : Type} (parse : String → Option γ) (idx : ℕ)
    (stages : List Stage)
    (h : (stages.all fun st =>
      (st.routes.getD []).all fun r? =>
        (((r?.bind RouteRec.raw_data).bind RawData.movements).getD []).isEmpty) = true) :
    ((buildStagesFrom parse idx stages).all fun b => b.features.isEmpty) = true := by
  rw [List.all_eq_true] at h
  induction stages generalizing idx with
  | nil => rfl
  | cons st rest ih =>
    rw [buildStagesFrom, List.all_cons, Bool.and_eq_true]
    constructor
    · have hst := collectFeatures_no_movements parse idx st (h st (by simp))
      show (buildStage parse idx st).features.isEmpty = true
      rw [show (buildStage parse idx st).features = collectFeatures parse idx st from rfl, hst]
      rfl
    · exact ih (idx + 1) (fun x hx => h x (by simp [hx]))

/-- C2, amended.  The layer generator traverses only the
movement/alternative/geometry shape and takes no mode flag: whenever no route
of the response carries movement-shaped data, every synthesized layer has an
empty feature list, even if maneuver/outgoing-path-shaped geometry is
present.  The companion counterexample shows the two shapes are not handled
alike.  RoutingService.parseRouteGeometry separately walks a
waypoint/alternative/geometry shape, likewise without a mode flag. -/
theorem movements_shape_only (γ : Type) (parse : String → Option γ) (resp : Option Resp)
    (h : noMovements resp = true) :
    ((generateLayers parse resp).all fun b => b.features.isEmpty) = true := by
  unfold generateLayers
  exact buildStagesFrom_no_movements parse 0 _ h

/-- Witness for the amended C2 theorem: a concrete response whose only
geometry sits in the maneuver shape produces one layer with no features. -/
theorem movements_shape_only_witness :
    noMovements (some (Resp.mk (some [Stage.mk (some [some (RouteRec.mk (some (RawData.mk none
        (some [some (Maneuver.mk (some (OutcomingPath.mk
          (some [GeomSel.mk "LINESTRING(0 0,1 1)"]))))]))))])]))) = true ∧
    ((generateLayers (fun _ => some 0) (some (Resp.mk (some [Stage.mk (some [some (RouteRec.mk
        (some (RawData.mk none (some [some (Maneuver.mk (some (OutcomingPath.mk
          (some [GeomSel.mk "LINESTRING(0 0,1 1)"]))))]))))])])))).all
      fun b => b.features.isEmpty) = true :=
  ⟨by decide, movements_shape_only ℕ (fun _ => some 0) _ (by decide)⟩

/-- Counterexample for C2 as stated: the same geometry string is emitted as a
feature when it sits in the movement shape but is ignored when it sits in the
maneuver/outgoing-path shape, and generateLayers offers no mode flag to
select the latter, so the two traversal shapes do not receive the same
emission contract. -/
theorem traversal_shapes_differ :
    ((generateLayers (fun _ => some 0) (some (Resp.mk (some [Stage.mk (some [some (RouteRec.mk
        (some (RawData.mk (some [some (Movement.mk (some [some (MAlternative.mk
          (some [GeomSel.mk "LINESTRING(0 0,1 1)"]))]))]) none)))])])))).map
      fun b => b.features.length) = [1] ∧
    ((generateLayers (fun _ => some 0) (some (Resp.mk (some [Stage.mk (some [some (RouteRec.mk
        (some (RawData.mk none (some [some (Maneuver.mk (some (OutcomingPath.mk
          (some [GeomSel.mk "LINESTRING(0 0,1 1)"]))))]))))])])))).map
      fun b => b.features.length) = [0] := by
  decide

/-- Stage iteration preserves length. -/
lemma buildStagesFrom_length {γ : Type} (parse : String → Option γ) (idx : ℕ)
    (stages : List Stage) :
    (buildStagesFrom parse idx stages).length = stages.length := by
  induction stages generalizing idx with
  | nil => rfl
  | cons st rest ih =>
    rw [buildStagesFrom, List.length_cons, List.length_cons, ih (idx + 1)]

/-- Indexed lookup into the stage iteration. -/
lemma buildStagesFrom_get? {γ : Type} (parse : String → Option γ) (idx : ℕ)
    (stages : List Stage) (k : ℕ) :
    (buildStagesFrom parse idx stages).get? k = (stages.get? k).map (buildStage parse (idx + k)) := by
  induction stages generalizing idx k with
  | nil => simp [buildStagesFrom]
  | cons st rest ih =>
    cases k with
    | zero => simp [buildStagesFrom]
    | succ k =>
      rw [buildStagesFrom]
      show (buildStagesFrom parse (idx + 1) rest).get? k = (rest.get? k).map (buildStage parse (idx + (k + 1)))
      rw [ih (idx + 1) k, show idx + 1 + k = idx + (k + 1) by omega]

/-- C6, amended.  The palette has exactly five entries; layer synthesis emits
one layer per stage (an empty stage still produces an empty-feature layer,
never an omitted one) whose filter key and id carry the raw stage index as a
string; but the color is the palette entry at the raw index with no modulo:
for index five and beyond the looked-up color is absent (undefined), not
palette entry (index mod 5). -/
theorem layer_fields (γ : Type) (parse : String → Option γ) (resp : Option Resp) (k : ℕ)
    (bld : StageBuild γ) (h : (generateLayers parse resp).get? k = some bld) :
    bld.color = lineColors.get? k ∧ bld.filterKey = Nat.repr k ∧
      bld.id = "my-polygons-layer-" ++ Nat.repr k ∧ lineColors.length = 5 ∧
      (generateLayers parse resp).length = ((resp.bind Resp.stages).getD []).length := by
  unfold generateLayers at h ⊢
  rw [buildStagesFrom_get? parse 0 _ k] at h
  cases hst : ((resp.bind Resp.stages).getD []).get? k with
  | none => rw [hst] at h; simp at h
  | some st =>
    rw [hst] at h
    simp only [Option.map_some', Option.some.injEq] at h
    subst h
    refine ⟨?_, ?_, ?_, rfl, buildStagesFrom_length parse 0 _⟩
    · show lineColors.get? (0 + k) = lineColors.get? k
      rw [Nat.zero_add]
    · show Nat.repr (0 + k) = Nat.repr k
      rw [Nat.zero_add]
    · show "my-polygons-layer-" ++ Nat.repr (0 + k) = "my-polygons-layer-" ++ Nat.repr k
      rw [Nat.zero_add]
/-- Counterexample for C3 as stated: a malformed selection string is not
skipped by RoutingService.parseRouteGeometry; it contributes a coordinate
pair with NaN and undefined components instead, so the extraction result for
a response whose only geometry is malformed is nonempty. -/
theorem parseRouteGeometry_no_skip :
    parseRouteGeometry
        [Waypoint.mk (some [WAlternative.mk (some [WAltGeom.mk (some "garbage")])])] =
      [(JNum.nan, JNum.undef)] ∧
    parseRouteGeometry
        [Waypoint.mk (some [WAlternative.mk (some [WAltGeom.mk (some "garbage")])])] ≠ [] := by
  decide

/-- A six-stage route response with no geometry, exercising the palette
lookup beyond its last entry. -/
def sixStageResp : Option Resp :=
  some (Resp.mk (some (List.replicate 6 (Stage.mk none))))

/-- Witness for the amended C6 theorem at stage index five of a six-stage
response: the looked-up color is the palette entry at the raw index. -/
theorem layer_fields_witness :
    (generateLayers (fun _ => (none : Option Unit)) sixStageResp).get? 5 =
      some (StageBuild.mk [] "5" "my-polygons-layer-5" "5" none 2) ∧
    (StageBuild.mk ([] : List (Feature Unit)) "5" "my-polygons-layer-5" "5" none 2).color =
      lineColors.get? 5 :=
  ⟨by decide,
    (layer_fields Unit (fun _ => none) sixStageResp 5
      (StageBuild.mk [] "5" "my-polygons-layer-5" "5" none 2) (by decide)).1⟩

/-- Counterexample for C6 as stated: in a six-stage response the layer for
stage index five has no color at all (the palette is read at the raw index,
which is out of range), while the claim requires palette entry (5 mod 5),
the first palette color. -/
theorem layer_color_no_modulo :
    (generateLayers (fun _ => (none : Option Unit)) sixStageResp).get? 5 =
      some (StageBuild.mk [] "5" "my-polygons-layer-5" "5" none 2) ∧
    lineColors.get? (5 % 5) = some "#0000ff" ∧
    (StageBuild.mk ([] : List (Feature Unit)) "5" "my-polygons-layer-5" "5" none 2).color ≠
      some "#0000ff" := by
  decide

/-- Model of the map layer-id state mutated by handleMapClick: the call of
map.addLayer succeeds only for a fresh id; a duplicate-id add fails and is
caught and logged (src/unnamed/part_013 lines 189-196), leaving the existing
layer in place.  No layer is ever removed. -/
def addLayerIds (st : List String) (lid : String) : List String :=
  if lid ∈ st then st else st ++ [lid]

/-- Embedding of the layer portion of handleMapClick (src/unnamed/part_013
lines 184-216): regenerate the layers for the response and add each of them
to the map state in order. -/
def handleMapClickLayers {γ : Type} (parse : String → Option γ) (resp : Option Resp)
    (st : List String) : List String :=
  (generateLayers parse resp).foldl (fun s b => addLayerIds s b.id) st

/-- Adding layer ids never removes a present id. -/
lemma mem_foldl_addLayerIds {β : Type} (f : β → String) (bs : List β) (st : List String)
    (x : String) (h : x ∈ st) : x ∈ bs.foldl (fun s b => addLayerIds s (f b)) st := by
  induction bs generalizing st with
  | nil => exact h
  | cons b rest ih =>
    rw [List.foldl_cons]
    apply ih
    unfold addLayerIds
    by_cases hb : f b ∈ st
    · rwa [if_pos hb]
    · rw [if_neg hb]
      exact List.mem_append_left _ h

/-- C7, amended.  A rebuild triggered by handleMapClick merges into the
existing layer set instead of replacing it: every layer id present before the
click is still present afterwards (a duplicate-id add fails and is caught,
leaving the existing layer), so a layer of a previous build remains alongside
the newly added ones, and nothing clears the previous overlay backing state
before the new one is built. -/
theorem handleMapClick_layers_persist (γ : Type) (parse : String → Option γ)
    (resp : Option Resp) (st : List String) (x : String) (h : x ∈ st) :
    x ∈ handleMapClickLayers parse resp st := by
  unfold handleMapClickLayers
  exact mem_foldl_addLayerIds StageBuild.id (generateLayers parse resp) st x h

/-- Witness for the amended C7 theorem: a stale id survives a concrete
rebuild. -/
theorem handleMapClick_layers_persist_witness :
    "old-route-layer" ∈ ["old-route-layer"] ∧
    "old-route-layer" ∈ handleMapClickLayers (fun _ => (none : Option Unit))
      (some (Resp.mk (some [Stage.mk none]))) ["old-route-layer"] :=
  ⟨by decide,
    handleMapClick_layers_persist Unit (fun _ => none) (some (Resp.mk (some [Stage.mk none])))
      ["old-route-layer"] "old-route-layer" (by decide)⟩

/-- Counterexample for C7 as stated: after a rebuild over a map state holding
a stale layer id from a previous route, the stale id is still present
alongside the freshly added layer, so the rebuild did not replace the full
previous layer set. -/
theorem stale_layer_remains :
    handleMapClickLayers (fun _ => (none : Option Unit))
        (some (Resp.mk (some [Stage.mk none]))) ["old-route-layer"] =
      ["old-route-layer", "my-polygons-layer-0"] ∧
    "old-route-layer" ≠ "my-polygons-layer-0" := by
  decide

/-- Model of the JavaScript Math.abs on the drag coordinates. -/
def jsAbs (q : ℚ) : ℚ := if q < 0 then -q else q

/-- Embedding of BottomDrawer.handleTouchEnd
(src/frontend/src/components/BottomDrawer.jsx lines 42-61): when a drag is
active, compute the drag delta; if its magnitude strictly exceeds the
threshold 50, a downward drag of an open drawer closes it and an upward drag
of a closed drawer opens it; in every other case the drawer keeps its
pre-drag state (snap-back).  When no drag is active the handler returns
early. -/
def handleTouchEnd (isDragging isOpen : Bool) (startY currentY : ℚ) : Bool :=
  if isDragging = false then isOpen
  else
    if 50 < jsAbs (currentY - startY) then
      if 0 < currentY - startY ∧ isOpen = true then false
      else if currentY - startY < 0 ∧ isOpen = false then true
      else isOpen
    else isOpen

/-- Post-drag state required by the claim wording of C8: commit on a delta of
magnitude at least the threshold (inclusive bounds). -/
def specDragEnd (preOpen : Bool) (dragDelta : ℚ) : Bool :=
  if preOpen = false ∧ dragDelta ≤ -50 then true
  else if preOpen = true ∧ 50 ≤ dragDelta then false
  else preOpen

/-- Post-drag state with strict threshold bounds, matching the source. -/
def strictDragEnd (preOpen : Bool) (dragDelta : ℚ) : Bool :=
  if preOpen = false ∧ dragDelta < -50 then true
  else if preOpen = true ∧ 50 < dragDelta then false
  else preOpen

/-- C8, amended.  For every dragEnd event of the drawer gesture handler the
post-drag state is: expanded if the pre-drag state was collapsed and the drag
delta is strictly below minus 50; collapsed if the pre-drag state was
expanded and the drag delta is strictly above plus 50; and otherwise the
pre-drag state, including at a delta of exactly plus or minus 50 and when the
drag direction does not match the gating rule.  A dragEnd with no active drag
leaves the state unchanged. -/
theorem dragEnd_strict_threshold (isOpen : Bool) (startY currentY : ℚ) :
    handleTouchEnd true isOpen startY currentY = strictDragEnd isOpen (currentY - startY) ∧
    handleTouchEnd false isOpen startY currentY = isOpen := by
  constructor
  · unfold handleTouchEnd strictDragEnd jsAbs
    cases isOpen <;> split_ifs <;>
      first
        | rfl
        | (exfalso; linarith)
        | (simp_all <;> linarith)
  · rfl

/-- Counterexample for C8 as stated: a drag of exactly minus 50 from the
collapsed state leaves the drawer collapsed (the source compares the
magnitude strictly), while the claim requires it to expand. -/
theorem dragEnd_boundary_counterexample :
    handleTouchEnd true false 100 50 = false ∧
    ((50 : ℚ) - 100 ≤ -50) ∧
    specDragEnd false ((50 : ℚ) - 100) = true ∧
    handleTouchEnd true false 100 50 ≠ specDragEnd false ((50 : ℚ) - 100) := by
  refine ⟨?_, by norm_num, ?_, ?_⟩ <;> norm_num [handleTouchEnd, specDragEnd, jsAbs]

/-- Store state of the route context provider
(src/frontend/src/Shared/RouteContext.jsx): the active route data and the
drawer flag. -/
structure RouteStoreState (α : Type) where
  routeData : Option α
  isDrawerOpen : Bool
deriving DecidableEq

/-- Embedding of updateRouteData (RouteContext.jsx lines 17-22): store the
new data and open the drawer when the data is truthy. -/
def updateRouteData {α : Type} (data : Option α) (s : RouteStoreState α) : RouteStoreState α :=
  { routeData := data
  , isDrawerOpen := if data.isSome then true else s.isDrawerOpen }

/-- Embedding of toggleDrawer (RouteContext.jsx lines 24-26). -/
def toggleDrawer {α : Type} (opn : Bool) (s : RouteStoreState α) : RouteStoreState α :=
  { s with isDrawerOpen := opn }

/-- Embedding of clearRoute (RouteContext.jsx lines 28-31): drop the route
and collapse the drawer. -/
def clearRoute {α : Type} (_s : RouteStoreState α) : RouteStoreState α :=
  { routeData := none, isDrawerOpen := false }

/-- C9.  Setting a route stores it and forces the drawer into expanded;
clearing removes the active route and forces collapsed; and for every data
and every starting state, setting then clearing leaves the drawer collapsed
and the active route none. -/
theorem routeStore_set_then_clear (α : Type) (d : α) (s s2 s3 : RouteStoreState α)
    (data : Option α) :
    (updateRouteData (some d) s).routeData = some d ∧
    (updateRouteData (some d) s).isDrawerOpen = true ∧
    clearRoute s2 = RouteStoreState.mk (none : Option α) false ∧
    clearRoute (updateRouteData data s3) = RouteStoreState.mk (none : Option α) false :=
  ⟨rfl, rfl, rfl, rfl⟩

/-- Backend payload shape shared by both geocoding wrappers
(src/frontend/src/Api/geocodingService.js): the response data carries an
optional result object with an optional items list. -/
structure GeoQueryResult (ι : Type) where
  items : Option (List ι)

/-- Response data of the geocoding endpoint. -/
structure GeoResponseData (ι : Type) where
  result : Option (GeoQueryResult ι)

/-- Embedding of geocodingService.searchAddresses (geocodingService.js lines
8-25): the axios outcome is either an error (the catch branch logs and
returns the empty array) or a response whose optional items list is returned,
defaulting to the empty array. -/
def searchAddresses {ε ι : Type} (r : Except ε (GeoResponseData ι)) : List ι :=
  match r with
  | Except.error _ => []
  | Except.ok resp => (resp.result.bind GeoQueryResult.items).getD []

/-- Embedding of geocodingService.reverseGeocode (geocodingService.js lines
28-45): the first item of the optional items list, or null on a missing item
or a failed request. -/
def reverseGeocode {ε ι : Type} (r : Except ε (GeoResponseData ι)) : Option ι :=
  match r with
  | Except.error _ => none
  | Except.ok resp => (resp.result.bind GeoQueryResult.items).bind List.head?

/-- C10.  Both geocoding wrappers are total functions of the request outcome,
so a caller can never observe a geocoding failure as an exception: a failed
request yields the empty suggestion list and a null reverse result, a
response carrying an items list yields exactly that list, and the reverse
wrapper always returns the head of what the search wrapper would return. -/
theorem geocoding_never_throws (ε ι : Type) (e : ε) (r : Except ε (GeoResponseData ι))
    (resp : GeoResponseData ι) (l : List ι)
    (h : resp.result.bind GeoQueryResult.items = some l) :
    searchAddresses (Except.error e : Except ε (GeoResponseData ι)) = [] ∧
    reverseGeocode (Except.error e : Except ε (GeoResponseData ι)) = none ∧
    reverseGeocode r = (searchAddresses r).head? ∧
    searchAddresses (Except.ok resp : Except ε (GeoResponseData ι)) = l := by
  refine ⟨rfl, rfl, ?_, ?_⟩
  · cases r with
    | error _ => rfl
    | ok resp2 =>
      show (resp2.result.bind GeoQueryResult.items).bind List.head? =
        ((resp2.result.bind GeoQueryResult.items).getD []).head?
      cases resp2.result.bind GeoQueryResult.items <;> rfl
  · show (resp.result.bind GeoQueryResult.items).getD [] = l
    rw [h]
    rfl

/-- Witness for C10 at a concrete failed request and a concrete item list. -/
theorem geocoding_never_throws_witness :
    searchAddresses (Except.error 0 : Except ℕ (GeoResponseData ℕ)) = [] ∧
    searchAddresses
      (Except.ok (GeoResponseData.mk (some (GeoQueryResult.mk (some [7]))))
        : Except ℕ (GeoResponseData ℕ)) = [7] :=
  ⟨(geocoding_never_throws ℕ ℕ 0 (Except.error 0)
      (GeoResponseData.mk (some (GeoQueryResult.mk (some [7])))) [7] rfl).1,
    (geocoding_never_throws ℕ ℕ 0 (Except.error 0)
      (GeoResponseData.mk (some (GeoQueryResult.mk (some [7])))) [7] rfl).2.2.2⟩

/-- Arrival of one search call outcome for a field, tagged with the order in
which the call was issued.  The tag is bookkeeping used to state the claims:
the handler in the source never reads any sequence number. -/
inductive SearchEvent (α : Type) where
  | response (seq : ℕ) (results : List α)
  | failure (seq : ℕ)
deriving DecidableEq

/-- Embedding of the continuation of Finder.searchAddresses
(src/unnamed/part_002 lines 46-62): a resolved search call replaces the
field's suggestion list with its results unconditionally, and a rejected call
clears the list; no sequence number is consulted and no in-flight call is
cancelled. -/
def applySearchResponse {α : Type} (_state : List α) (e : SearchEvent α) : List α :=
  match e with
  | SearchEvent.response _ results => results
  | SearchEvent.failure _ => []

/-- Suggestion list after a sequence of search-call arrivals for one field,
in arrival order. -/
def runSearchArrivals {α : Type} (init : List α) (es : List (SearchEvent α)) : List α :=
  es.foldl applySearchResponse init

/-- C1, amended.  Search responses are applied in arrival order with no
sequence-ticket filtering: whatever arrives last determines the field's
suggestion list, so a response for a superseded request that arrives after
the fresher one overwrites it (and a failure arriving last clears the
list). -/
theorem search_last_arrival_wins (α : Type) (init : List α) (es : List (SearchEvent α))
    (seq : ℕ) (results : List α) :
    runSearchArrivals init (es ++ [SearchEvent.response seq results]) = results ∧
    runSearchArrivals init (es ++ [SearchEvent.failure seq]) = [] := by
  unfold runSearchArrivals
  constructor <;> rw [List.foldl_append] <;> rfl

/-- Counterexample for C1 as stated: with responses for sequence numbers 1
and 2 in flight for the same field and the response for 2 arriving first, the
final suggestion list reflects sequence 1, not sequence 2. -/
theorem stale_response_overwrites :
    runSearchArrivals ([] : List String)
        [SearchEvent.response 2 ["b"], SearchEvent.response 1 ["a"]] = ["a"] ∧
    (["a"] : List String) ≠ ["b"] := by
  decide
